import Mathlib

/-!
Shallow embedding of the tile-rasterization engine of `src/app.js`
(class `Rasterizer`).  The engine maps a linear physical work index to a
three-dimensional logical tile coordinate `(m, n, l)` and back.

Machine integers of the source (JS numbers used as integers, with the
interface declaring `tile_m/tile_n/tile_l` unsigned 32-bit and the linear
index unsigned 64-bit) are embedded as `Nat`; the invalid-index sentinel
`kInvalidLinearIndex = -1` makes `encode` return `Int`.

The JS bitwise operators (`&`, `>>`, `<<`, `|` in the cluster-swizzle
helpers) wrap their operands to signed 32 bits (ECMA-262 `ToInt32`).  The
embedding carries both readings:
- `decodeSwizzledClusterId` / `encodeSwizzledClusterId`, and the `decode` /
  `encode` built on them, use exact wrap-free bitwise arithmetic on `Nat`.
  This coincides with the JS behavior whenever every operand and result
  pattern stays below `2 ^ 31`, and matches the repository's `uint64_t`
  reference implementation `src/rasterization.cu` on all inputs;
- `decodeSwizzledClusterId32` / `encodeSwizzledClusterId32`, and
  `decode32` / `encode32`, model the `ToInt32` wrap itself and are the
  faithful reading of `app.js` on configurations whose swizzled cluster
  ids reach `2 ^ 31`, where the two semantics diverge.

The guards `tileL < 0`, `tileM < 0`, `tileN < 0`, `linearIdx < 0` of the
source are vacuous on `Nat` inputs and dropped in the wrap-free reading;
`encode32` keeps them, since wrapped intermediates make them reachable.
The `debug` payload of `decode` (display-only data mirroring the local
variables) is omitted.
-/

namespace Raster

/-- Raster order resolved by the engine (`RasterOrder` in the source). -/
inductive RasterOrder where
  | AlongM
  | AlongN
deriving DecidableEq

/-- Raster-order request (`RasterOrderOption` in the source). -/
inductive RasterOrderOption where
  | Heuristic
  | AlongM
  | AlongN
deriving DecidableEq

/-- Logical problem extent in tiles (`problem` / `logical_`). -/
structure ProblemShape where
  tiles_m : Nat
  tiles_n : Nat
  batches : Nat
deriving DecidableEq

/-- Cluster extent in tiles (`cluster` / `cluster_`). -/
structure ClusterShape where
  m : Nat
  n : Nat
deriving DecidableEq

/-- Result of a decode (the `out` object of `Rasterizer.decode`). -/
structure TileCoord where
  m : Nat
  n : Nat
  l : Nat
  valid : Bool
  in_bounds : Bool
deriving DecidableEq

/-- Result of `decodeSwizzledClusterId` (the object literal it returns). -/
structure ClusterIndices where
  clusterMinorIdx : Nat
  clusterMajorIdx : Nat
deriving DecidableEq

/-- Derived state of a configured `Rasterizer` (the fields set by `init`). -/
structure Rasterizer where
  logical : ProblemShape
  cluster : ClusterShape
  log_swizzle_size : Nat
  swizzle_size : Nat
  padded : ProblemShape
  raster_order : RasterOrder
  cluster_major : Nat
  cluster_minor : Nat
  clusters_along_major : Nat
  clusters_along_minor : Nat
  tiles_per_batch : Nat
  total_tiles : Nat
deriving DecidableEq

namespace Rasterizer

/-- `Rasterizer.kInvalidLinearIndex = -1`. -/
def kInvalidLinearIndex : Int := -1

/-- `Rasterizer.roundUp(value, multiple)`. -/
def roundUp (value multiple : Nat) : Nat :=
  if multiple = 0 then value
  else (value + multiple - 1) / multiple * multiple

/-- `Rasterizer.clampMaxSwizzle(maxSwizzleSize)`. -/
def clampMaxSwizzle (maxSwizzleSize : Nat) : Nat :=
  if maxSwizzleSize ≥ 8 then 8
  else if maxSwizzleSize ≥ 4 then 4
  else if maxSwizzleSize ≥ 2 then 2
  else 1

/-- `Rasterizer.selectLogSwizzleSize(problemCtasM, problemCtasN, maxSwizzleSize)`. -/
def selectLogSwizzleSize (problemCtasM problemCtasN maxSwizzleSize : Nat) : Nat :=
  let minCtaDim := min problemCtasM problemCtasN
  if maxSwizzleSize ≥ 8 ∧ minCtaDim ≥ 6 then 3
  else if maxSwizzleSize ≥ 4 ∧ minCtaDim ≥ 3 then 2
  else if maxSwizzleSize ≥ 2 ∧ minCtaDim ≥ 2 then 1
  else 0

/-- `Rasterizer.selectRasterOrder(tilesM, tilesN, option)`. -/
def selectRasterOrder (tilesM tilesN : Nat) (option : RasterOrderOption) : RasterOrder :=
  if option = RasterOrderOption.Heuristic then
    if tilesN > tilesM then RasterOrder.AlongM else RasterOrder.AlongN
  else if option = RasterOrderOption.AlongN then RasterOrder.AlongN
  else RasterOrder.AlongM

/-- `Rasterizer.init(problem, cluster, options)`.  On `Nat` inputs the
coercions `Math.max(0, Math.trunc(...))` on the problem fields are the
identity; `cluster.m || 1` and `options.max_swizzle_size || 1` turn 0 into 1
(0 is the only falsy `Nat`); `options.raster_order` is taken as an enum
value directly. -/
def init (problem : ProblemShape) (cluster : ClusterShape)
    (max_swizzle_size : Nat) (raster_order : RasterOrderOption) : Rasterizer :=
  let logical : ProblemShape :=
    { tiles_m := problem.tiles_m, tiles_n := problem.tiles_n, batches := problem.batches }
  let cl : ClusterShape :=
    { m := max 1 (if cluster.m = 0 then 1 else cluster.m),
      n := max 1 (if cluster.n = 0 then 1 else cluster.n) }
  let cappedMaxSwizzle :=
    clampMaxSwizzle (if max_swizzle_size = 0 then 1 else max_swizzle_size)
  let lss := selectLogSwizzleSize logical.tiles_m logical.tiles_n cappedMaxSwizzle
  let ss := 1 <<< lss
  let alignM := ss * cl.m
  let alignN := ss * cl.n
  let padded : ProblemShape :=
    { tiles_m := roundUp logical.tiles_m alignM,
      tiles_n := roundUp logical.tiles_n alignN,
      batches := logical.batches }
  let ro := selectRasterOrder padded.tiles_m padded.tiles_n raster_order
  { logical := logical
    cluster := cl
    log_swizzle_size := lss
    swizzle_size := ss
    padded := padded
    raster_order := ro
    cluster_major := if ro = RasterOrder.AlongN then cl.n else cl.m
    cluster_minor := if ro = RasterOrder.AlongN then cl.m else cl.n
    clusters_along_major :=
      if ro = RasterOrder.AlongN then padded.tiles_n / cl.n else padded.tiles_m / cl.m
    clusters_along_minor :=
      if ro = RasterOrder.AlongN then padded.tiles_m / cl.m else padded.tiles_n / cl.n
    tiles_per_batch := padded.tiles_m * padded.tiles_n
    total_tiles := padded.tiles_m * padded.tiles_n * padded.batches }

/-- `Rasterizer.logicalTileCount()`. -/
def logicalTileCount (r : Rasterizer) : Nat :=
  r.logical.tiles_m * r.logical.tiles_n * r.logical.batches

/-- `Rasterizer.hasValidExtent()`. -/
def hasValidExtent (r : Rasterizer) : Bool :=
  decide (0 < r.cluster_major) && decide (0 < r.cluster_minor) &&
  decide (0 < r.clusters_along_major) && decide (0 < r.padded.batches) &&
  decide (0 < r.tiles_per_batch)

/-- `Rasterizer.decodeSwizzledClusterId(clusterIdSwizzled)`, wrap-free
reading: the bitwise operations are exact on `Nat`, as in the `uint64_t`
reference `rasterization.cu`; equal to the JS behavior while
`clusterIdSwizzled < 2 ^ 31`.  `decodeSwizzledClusterId32` models the JS
`ToInt32` wrap. -/
def decodeSwizzledClusterId (r : Rasterizer) (clusterIdSwizzled : Nat) : ClusterIndices :=
  let swizzleMask := r.swizzle_size - 1
  let offset := clusterIdSwizzled &&& swizzleMask
  let extra := clusterIdSwizzled >>> r.log_swizzle_size
  { clusterMinorIdx := extra / r.clusters_along_major * r.swizzle_size + offset,
    clusterMajorIdx := extra % r.clusters_along_major }

/-- `Rasterizer.encodeSwizzledClusterId(clusterMajorIdx, clusterMinorIdx)`,
wrap-free reading (see `decodeSwizzledClusterId`); equal to the JS behavior
while the shifted intermediate stays below `2 ^ 31`.
`encodeSwizzledClusterId32` models the JS `ToInt32` wrap. -/
def encodeSwizzledClusterId (r : Rasterizer) (clusterMajorIdx clusterMinorIdx : Nat) : Nat :=
  let swizzleMask := r.swizzle_size - 1
  let clusterMinorDivSwizzle := clusterMinorIdx >>> r.log_swizzle_size
  let offset := clusterMinorIdx &&& swizzleMask
  let extra := clusterMinorDivSwizzle * r.clusters_along_major + clusterMajorIdx
  (extra <<< r.log_swizzle_size) ||| offset

/-- `Rasterizer.decode(linearIdx)`, wrap-free reading of the swizzle step
(the guards and the surrounding unsigned splits are the same in both
readings); `decode32` is the `ToInt32`-faithful variant. -/
def decode (r : Rasterizer) (linearIdx : Nat) : TileCoord :=
  if ¬ r.hasValidExtent then
    { m := 0, n := 0, l := 0, valid := false, in_bounds := false }
  else if linearIdx ≥ r.total_tiles then
    { m := 0, n := 0, l := 0, valid := false, in_bounds := false }
  else
    let l := linearIdx / r.tiles_per_batch
    let idxInBatch := linearIdx % r.tiles_per_batch
    let minorOffset := idxInBatch % r.cluster_minor
    let blkPerGridDim := idxInBatch / r.cluster_minor
    let clusterIdSwizzled := blkPerGridDim / r.cluster_major
    let majorOffset := blkPerGridDim % r.cluster_major
    let clusterIndices := r.decodeSwizzledClusterId clusterIdSwizzled
    let major := clusterIndices.clusterMajorIdx * r.cluster_major + majorOffset
    let minor := clusterIndices.clusterMinorIdx * r.cluster_minor + minorOffset
    let m := if r.raster_order = RasterOrder.AlongN then minor else major
    let n := if r.raster_order = RasterOrder.AlongN then major else minor
    { m := m, n := n, l := l, valid := true,
      in_bounds :=
        decide (m < r.logical.tiles_m) && decide (n < r.logical.tiles_n) &&
        decide (l < r.logical.batches) }

/-- `Rasterizer.encode(tileM, tileN, tileL, allowPadded)`, wrap-free
reading of the swizzle step; `encode32` is the `ToInt32`-faithful
variant. -/
def encode (r : Rasterizer) (tileM tileN tileL : Nat) (allowPadded : Bool) : Int :=
  if ¬ r.hasValidExtent then kInvalidLinearIndex
  else if tileL ≥ r.logical.batches then kInvalidLinearIndex
  else
    let boundM := if allowPadded then r.padded.tiles_m else r.logical.tiles_m
    let boundN := if allowPadded then r.padded.tiles_n else r.logical.tiles_n
    if tileM ≥ boundM ∨ tileN ≥ boundN then kInvalidLinearIndex
    else
      let major := if r.raster_order = RasterOrder.AlongN then tileN else tileM
      let minor := if r.raster_order = RasterOrder.AlongN then tileM else tileN
      let clusterMajorIdx := major / r.cluster_major
      let clusterMinorIdx := minor / r.cluster_minor
      let majorOffset := major % r.cluster_major
      let minorOffset := minor % r.cluster_minor
      let clusterIdSwizzled := r.encodeSwizzledClusterId clusterMajorIdx clusterMinorIdx
      let blkPerGridDim := clusterIdSwizzled * r.cluster_major + majorOffset
      let idxInBatch := blkPerGridDim * r.cluster_minor + minorOffset
      ((tileL * r.tiles_per_batch + idxInBatch : Nat) : Int)

/-- ECMA-262 `ToUint32`: the unsigned 32-bit pattern of an integral JS
number, i.e. its value modulo `2 ^ 32`. -/
def toUint32 (x : Int) : Nat := (x % (2 ^ 32 : Int)).toNat

/-- Reads an unsigned 32-bit pattern back as a signed (two's-complement)
32-bit value. -/
def ofUint32 (u : Nat) : Int := if u < 2 ^ 31 then (u : Int) else (u : Int) - 2 ^ 32

/-- ECMA-262 `ToInt32`: wrap an integral JS number to a signed 32-bit
value. -/
def toInt32 (x : Int) : Int := ofUint32 (toUint32 x)

/-- JS `x & y`: bitwise AND of the 32-bit patterns, read back signed. -/
def jsAnd (x y : Int) : Int := ofUint32 (toUint32 x &&& toUint32 y)

/-- JS `x | y`: bitwise OR of the 32-bit patterns, read back signed. -/
def jsOr (x y : Int) : Int := ofUint32 (toUint32 x ||| toUint32 y)

/-- JS `x << y`: the 32-bit pattern shifted by the count modulo 32, wrapped
to a signed 32-bit value. -/
def jsShiftLeft (x : Int) (y : Nat) : Int :=
  ofUint32 ((toUint32 x <<< (y % 32)) % 2 ^ 32)

/-- JS `x >> y`: sign-propagating right shift, i.e. flooring division of
the `ToInt32` value by `2 ^ (count mod 32)`. -/
def jsShiftRight (x : Int) (y : Nat) : Int :=
  Int.fdiv (toInt32 x) (2 ^ (y % 32))

/-- Result of `decodeSwizzledClusterId32`; the indices may wrap negative. -/
structure ClusterIndices32 where
  clusterMinorIdx : Int
  clusterMajorIdx : Int
deriving DecidableEq

/-- `Rasterizer.decodeSwizzledClusterId(clusterIdSwizzled)` under the JS
32-bit bitwise semantics.  `Math.trunc(extra / A)` and `extra % A` on the
possibly negative `extra` truncate toward zero, which is `Int.tdiv` /
`Int.tmod`. -/
def decodeSwizzledClusterId32 (r : Rasterizer) (clusterIdSwizzled : Int) : ClusterIndices32 :=
  let swizzleMask : Int := (r.swizzle_size : Int) - 1
  let offset := jsAnd clusterIdSwizzled swizzleMask
  let extra := jsShiftRight clusterIdSwizzled r.log_swizzle_size
  { clusterMinorIdx :=
      Int.tdiv extra (r.clusters_along_major : Int) * (r.swizzle_size : Int) + offset,
    clusterMajorIdx := Int.tmod extra (r.clusters_along_major : Int) }

/-- `Rasterizer.encodeSwizzledClusterId(clusterMajorIdx, clusterMinorIdx)`
under the JS 32-bit bitwise semantics. -/
def encodeSwizzledClusterId32 (r : Rasterizer) (clusterMajorIdx clusterMinorIdx : Int) : Int :=
  let swizzleMask : Int := (r.swizzle_size : Int) - 1
  let clusterMinorDivSwizzle := jsShiftRight clusterMinorIdx r.log_swizzle_size
  let offset := jsAnd clusterMinorIdx swizzleMask
  let extra := clusterMinorDivSwizzle * (r.clusters_along_major : Int) + clusterMajorIdx
  jsOr (jsShiftLeft extra r.log_swizzle_size) offset

/-- Decode result under the JS 32-bit semantics: the coordinate fields may
wrap negative, so they are `Int`. -/
structure TileCoord32 where
  m : Int
  n : Int
  l : Nat
  valid : Bool
  in_bounds : Bool
deriving DecidableEq

/-- `Rasterizer.decode(linearIdx)` with the JS 32-bit bitwise semantics in
the cluster-swizzle step.  The guards and the unsigned splits before the
swizzle are identical to `decode`; the recombination after it runs on the
possibly negative cluster indices. -/
def decode32 (r : Rasterizer) (linearIdx : Nat) : TileCoord32 :=
  if ¬ r.hasValidExtent then
    { m := 0, n := 0, l := 0, valid := false, in_bounds := false }
  else if linearIdx ≥ r.total_tiles then
    { m := 0, n := 0, l := 0, valid := false, in_bounds := false }
  else
    let l := linearIdx / r.tiles_per_batch
    let idxInBatch := linearIdx % r.tiles_per_batch
    let minorOffset := idxInBatch % r.cluster_minor
    let blkPerGridDim := idxInBatch / r.cluster_minor
    let clusterIdSwizzled := blkPerGridDim / r.cluster_major
    let majorOffset := blkPerGridDim % r.cluster_major
    let clusterIndices := r.decodeSwizzledClusterId32 (clusterIdSwizzled : Int)
    let major := clusterIndices.clusterMajorIdx * (r.cluster_major : Int) + (majorOffset : Int)
    let minor := clusterIndices.clusterMinorIdx * (r.cluster_minor : Int) + (minorOffset : Int)
    let m := if r.raster_order = RasterOrder.AlongN then minor else major
    let n := if r.raster_order = RasterOrder.AlongN then major else minor
    { m := m, n := n, l := l, valid := true,
      in_bounds := decide (m < (r.logical.tiles_m : Int)) &&
        decide (n < (r.logical.tiles_n : Int)) && decide (l < r.logical.batches) }

/-- `Rasterizer.encode(tileM, tileN, tileL, allowPadded)` with the JS
32-bit bitwise semantics.  The arguments are arbitrary integral JS numbers
here, so the source's negativity guards are kept. -/
def encode32 (r : Rasterizer) (tileM tileN tileL : Int) (allowPadded : Bool) : Int :=
  if ¬ r.hasValidExtent then kInvalidLinearIndex
  else if tileL < 0 ∨ tileL ≥ (r.logical.batches : Int) then kInvalidLinearIndex
  else
    let boundM : Int := if allowPadded then r.padded.tiles_m else r.logical.tiles_m
    let boundN : Int := if allowPadded then r.padded.tiles_n else r.logical.tiles_n
    if tileM < 0 ∨ tileN < 0 ∨ tileM ≥ boundM ∨ tileN ≥ boundN then kInvalidLinearIndex
    else
      let major := if r.raster_order = RasterOrder.AlongN then tileN else tileM
      let minor := if r.raster_order = RasterOrder.AlongN then tileM else tileN
      let clusterMajorIdx := Int.tdiv major (r.cluster_major : Int)
      let clusterMinorIdx := Int.tdiv minor (r.cluster_minor : Int)
      let majorOffset := Int.tmod major (r.cluster_major : Int)
      let minorOffset := Int.tmod minor (r.cluster_minor : Int)
      let clusterIdSwizzled := r.encodeSwizzledClusterId32 clusterMajorIdx clusterMinorIdx
      let blkPerGridDim := clusterIdSwizzled * (r.cluster_major : Int) + majorOffset
      let idxInBatch := blkPerGridDim * (r.cluster_minor : Int) + minorOffset
      tileL * (r.tiles_per_batch : Int) + idxInBatch

/-- The within-batch block of `Rasterizer.decode` (the source lines computing
`minorOffset` through `major`/`minor` from `idxInBatch`), split out so the
correctness arguments can speak about one batch at a time.  Returns
`(major, minor)`. -/
def decodeWithinBatch (r : Rasterizer) (idxInBatch : Nat) : Nat × Nat :=
  let minorOffset := idxInBatch % r.cluster_minor
  let blkPerGridDim := idxInBatch / r.cluster_minor
  let clusterIdSwizzled := blkPerGridDim / r.cluster_major
  let majorOffset := blkPerGridDim % r.cluster_major
  let clusterIndices := r.decodeSwizzledClusterId clusterIdSwizzled
  (clusterIndices.clusterMajorIdx * r.cluster_major + majorOffset,
   clusterIndices.clusterMinorIdx * r.cluster_minor + minorOffset)

/-- The within-batch block of `Rasterizer.encode` (the source lines computing
`clusterMajorIdx` through `idxInBatch` from `major`/`minor`). -/
def encodeWithinBatch (r : Rasterizer) (major minor : Nat) : Nat :=
  let clusterMajorIdx := major / r.cluster_major
  let clusterMinorIdx := minor / r.cluster_minor
  let majorOffset := major % r.cluster_major
  let minorOffset := minor % r.cluster_minor
  let clusterIdSwizzled := r.encodeSwizzledClusterId clusterMajorIdx clusterMinorIdx
  (clusterIdSwizzled * r.cluster_major + majorOffset) * r.cluster_minor + minorOffset

/-- The concrete configuration of the spec's first scenario:
`ProblemShape{127,93,2}`, `ClusterShape{2,2}`, `max_swizzle_size=8`,
raster-order option `Heuristic`. -/
def scenarioRasterizer : Rasterizer :=
  init { tiles_m := 127, tiles_n := 93, batches := 2 } { m := 2, n := 2 } 8
    RasterOrderOption.Heuristic

/-- A configuration whose index space reaches the JS `ToInt32` wrap:
`ProblemShape{16, 2^28, 1}`, `ClusterShape{1,1}`, `max_swizzle_size = 4`,
`AlongN` (swizzle 4, no padding, `total_tiles = 2^32`). -/
def wrapRasterizer : Rasterizer :=
  init { tiles_m := 16, tiles_n := 2 ^ 28, batches := 1 } { m := 1, n := 1 } 4
    RasterOrderOption.AlongN

/-- Like `wrapRasterizer` but with padding: `ProblemShape{16, 2^28 - 5, 1}`,
`ClusterShape{1,1}`, cap 4, `AlongN` (padded n extent `2^28 - 4`, so one
padding column of 16 tiles). -/
def wrapPaddingRasterizer : Rasterizer :=
  init { tiles_m := 16, tiles_n := 2 ^ 28 - 5, batches := 1 } { m := 1, n := 1 } 4
    RasterOrderOption.AlongN

/-- Structural invariants that `init` establishes; everything the
encode/decode correctness arguments need about a configuration. -/
structure WellFormed (r : Rasterizer) : Prop where
  swz : r.swizzle_size = 2 ^ r.log_swizzle_size
  cmaj_pos : 0 < r.cluster_major
  cmin_pos : 0 < r.cluster_minor
  major_ext : (if r.raster_order = RasterOrder.AlongN then r.padded.tiles_n else r.padded.tiles_m)
      = r.clusters_along_major * r.cluster_major
  minor_ext : (if r.raster_order = RasterOrder.AlongN then r.padded.tiles_m else r.padded.tiles_n)
      = r.clusters_along_minor * r.cluster_minor
  minor_mul : ∃ b0, r.clusters_along_minor = b0 * r.swizzle_size
  tpb_eq : r.tiles_per_batch = r.padded.tiles_m * r.padded.tiles_n
  total_eq : r.total_tiles = r.tiles_per_batch * r.padded.batches
  batches_eq : r.padded.batches = r.logical.batches
  m_le : r.logical.tiles_m ≤ r.padded.tiles_m
  n_le : r.logical.tiles_n ≤ r.padded.tiles_n

end Rasterizer

namespace Rasterizer

/-! ### Arithmetic helpers -/

/-- Recombining a Euclidean split: `x / y * y + x % y = x`. -/
theorem div_mul_add_mod (x y : Nat) : x / y * y + x % y = x := by
  rw [Nat.mul_comm]; exact Nat.div_add_mod x y

/-- Dividing a split value recovers the quotient. -/
theorem split_div {rr y : Nat} (q : Nat) (hr : rr < y) : (q * y + rr) / y = q := by
  have hy : 0 < y := Nat.lt_of_le_of_lt (Nat.zero_le rr) hr
  rw [Nat.mul_comm, Nat.mul_add_div hy, Nat.div_eq_of_lt hr, Nat.add_zero]

/-- Taking a split value modulo the radix recovers the remainder. -/
theorem split_mod {rr y : Nat} (q : Nat) (hr : rr < y) : (q * y + rr) % y = rr := by
  rw [Nat.mul_comm, Nat.mul_add_mod, Nat.mod_eq_of_lt hr]

/-- A mixed-radix digit pair stays below the product of the bounds. -/
theorem split_lt {q x rr y : Nat} (hq : q < x) (hr : rr < y) : q * y + rr < x * y := by
  have h1 : q * y + rr < (q + 1) * y := by rw [Nat.add_mul, Nat.one_mul]; omega
  exact Nat.lt_of_lt_of_le h1 (Nat.mul_le_mul_right y hq)

/-- `roundUp` with a positive multiple never shrinks its value. -/
theorem le_roundUp (v : Nat) {k : Nat} (hk : 0 < k) : v ≤ roundUp v k := by
  unfold roundUp
  rw [if_neg (Nat.pos_iff_ne_zero.mp hk), Nat.mul_comm]
  have h1 := Nat.div_add_mod (v + k - 1) k
  have h2 : (v + k - 1) % k < k := Nat.mod_lt _ hk
  omega

/-- `roundUp` with multiple `0` is the identity. -/
theorem roundUp_zero (v : Nat) : roundUp v 0 = v := by simp [roundUp]

/-- `roundUp` produces a multiple of its (nonzero) alignment. -/
theorem roundUp_eq {k : Nat} (v : Nat) (hk : k ≠ 0) :
    roundUp v k = (v + k - 1) / k * k := by
  simp [roundUp, hk]

/-! ### Arithmetic forms of the swizzle helpers

The source computes with `&`, `>>`, `<<`, `|`; since `swizzle_size` is the
power of two `2 ^ log_swizzle_size`, these are ordinary division, modulus,
multiplication and addition. -/

/-- `decodeSwizzledClusterId` in divide/modulo form. -/
theorem decodeSwizzledClusterId_eq (r : Rasterizer)
    (h : r.swizzle_size = 2 ^ r.log_swizzle_size) (cid : Nat) :
    r.decodeSwizzledClusterId cid =
      { clusterMinorIdx :=
          cid / r.swizzle_size / r.clusters_along_major * r.swizzle_size + cid % r.swizzle_size,
        clusterMajorIdx := cid / r.swizzle_size % r.clusters_along_major } := by
  unfold decodeSwizzledClusterId
  rw [h]
  simp [Nat.and_pow_two_sub_one_eq_mod, Nat.shiftRight_eq_div_pow]

/-- `encodeSwizzledClusterId` in divide/modulo form. -/
theorem encodeSwizzledClusterId_eq (r : Rasterizer)
    (h : r.swizzle_size = 2 ^ r.log_swizzle_size) (a b : Nat) :
    r.encodeSwizzledClusterId a b =
      (b / r.swizzle_size * r.clusters_along_major + a) * r.swizzle_size
        + b % r.swizzle_size := by
  unfold encodeSwizzledClusterId
  rw [h]
  simp only [Nat.shiftRight_eq_div_pow, Nat.and_pow_two_sub_one_eq_mod, Nat.shiftLeft_eq]
  rw [Nat.mul_comm _ (2 ^ r.log_swizzle_size),
    ← Nat.mul_add_lt_is_or (Nat.mod_lt b (Nat.two_pow_pos _)) _]

/-! ### Within-batch correctness core -/

/-- Re-encoding the `(major, minor)` pair decoded from a within-batch index
gives back the index (encode is a left inverse of decode inside a batch). -/
theorem encodeWithinBatch_decodeWithinBatch (r : Rasterizer)
    (hS : r.swizzle_size = 2 ^ r.log_swizzle_size)
    (hcM : 0 < r.cluster_major) (hcm : 0 < r.cluster_minor) (idx : Nat) :
    r.encodeWithinBatch (r.decodeWithinBatch idx).1 (r.decodeWithinBatch idx).2 = idx := by
  have hS0 : 0 < r.swizzle_size := by rw [hS]; exact Nat.two_pow_pos _
  simp only [decodeWithinBatch, encodeWithinBatch, decodeSwizzledClusterId_eq r hS,
    encodeSwizzledClusterId_eq r hS]
  rw [split_div _ (Nat.mod_lt idx hcm), split_mod _ (Nat.mod_lt idx hcm),
    split_div _ (Nat.mod_lt _ hS0), split_mod _ (Nat.mod_lt _ hS0),
    split_div _ (Nat.mod_lt _ hcM), split_mod _ (Nat.mod_lt _ hcM),
    div_mul_add_mod, div_mul_add_mod, div_mul_add_mod, div_mul_add_mod]

/-- The `(major, minor)` pair decoded from a within-batch index below
`tiles_per_batch` stays inside the padded major/minor extents. -/
theorem decodeWithinBatch_lt (r : Rasterizer)
    (hS : r.swizzle_size = 2 ^ r.log_swizzle_size)
    (hcM : 0 < r.cluster_major) (hcm : 0 < r.cluster_minor)
    {b0 : Nat} (hB : r.clusters_along_minor = b0 * r.swizzle_size)
    {idx : Nat}
    (hidx : idx < (r.clusters_along_major * r.cluster_major) *
      (r.clusters_along_minor * r.cluster_minor)) :
    (r.decodeWithinBatch idx).1 < r.clusters_along_major * r.cluster_major ∧
    (r.decodeWithinBatch idx).2 < r.clusters_along_minor * r.cluster_minor := by
  have hS0 : 0 < r.swizzle_size := by rw [hS]; exact Nat.two_pow_pos _
  have hpos : 0 < (r.clusters_along_major * r.cluster_major) *
      (r.clusters_along_minor * r.cluster_minor) :=
    Nat.lt_of_le_of_lt (Nat.zero_le _) hidx
  have hA : 0 < r.clusters_along_major := by
    rcases Nat.eq_zero_or_pos r.clusters_along_major with h0 | h
    · rw [h0] at hpos; simp at hpos
    · exact h
  have hBpos : 0 < r.clusters_along_minor := by
    rcases Nat.eq_zero_or_pos r.clusters_along_minor with h0 | h
    · rw [h0] at hpos; simp at hpos
    · exact h
  have hb0 : 0 < b0 := by
    rcases Nat.eq_zero_or_pos b0 with h0 | h
    · rw [h0] at hB; simp at hB; omega
    · exact h
  have hblk : idx / r.cluster_minor <
      (r.clusters_along_major * r.cluster_major) * r.clusters_along_minor := by
    rw [Nat.div_lt_iff_lt_mul hcm]
    calc idx < (r.clusters_along_major * r.cluster_major) *
        (r.clusters_along_minor * r.cluster_minor) := hidx
    _ = (r.clusters_along_major * r.cluster_major) * r.clusters_along_minor *
        r.cluster_minor := by ring
  have hcid : idx / r.cluster_minor / r.cluster_major <
      r.clusters_along_major * r.clusters_along_minor := by
    rw [Nat.div_lt_iff_lt_mul hcM]
    calc idx / r.cluster_minor < (r.clusters_along_major * r.cluster_major) *
        r.clusters_along_minor := hblk
    _ = r.clusters_along_major * r.clusters_along_minor * r.cluster_major := by ring
  have hextra : idx / r.cluster_minor / r.cluster_major / r.swizzle_size <
      r.clusters_along_major * b0 := by
    rw [Nat.div_lt_iff_lt_mul hS0]
    calc idx / r.cluster_minor / r.cluster_major <
        r.clusters_along_major * r.clusters_along_minor := hcid
    _ = r.clusters_along_major * b0 * r.swizzle_size := by rw [hB]; ring
  have hq : idx / r.cluster_minor / r.cluster_major / r.swizzle_size /
      r.clusters_along_major < b0 := by
    rw [Nat.div_lt_iff_lt_mul hA]
    calc idx / r.cluster_minor / r.cluster_major / r.swizzle_size <
        r.clusters_along_major * b0 := hextra
    _ = b0 * r.clusters_along_major := by ring
  simp only [decodeWithinBatch, decodeSwizzledClusterId_eq r hS]
  refine ⟨split_lt (Nat.mod_lt _ hA) (Nat.mod_lt _ hcM), ?_⟩
  have hminor : idx / r.cluster_minor / r.cluster_major / r.swizzle_size /
      r.clusters_along_major * r.swizzle_size +
      idx / r.cluster_minor / r.cluster_major % r.swizzle_size <
      r.clusters_along_minor := by
    rw [hB]
    exact split_lt hq (Nat.mod_lt _ hS0)
  exact split_lt hminor (Nat.mod_lt _ hcm)

/-- Decoding the within-batch index encoded from an in-extent `(major, minor)`
pair gives back the pair, and that index stays below `tiles_per_batch`
(decode is a right inverse of encode inside a batch). -/
theorem decodeWithinBatch_encodeWithinBatch (r : Rasterizer)
    (hS : r.swizzle_size = 2 ^ r.log_swizzle_size)
    (hcM : 0 < r.cluster_major) (hcm : 0 < r.cluster_minor)
    {b0 : Nat} (hB : r.clusters_along_minor = b0 * r.swizzle_size)
    {major minor : Nat}
    (hmaj : major < r.clusters_along_major * r.cluster_major)
    (hmin : minor < r.clusters_along_minor * r.cluster_minor) :
    r.decodeWithinBatch (r.encodeWithinBatch major minor) = (major, minor) ∧
    r.encodeWithinBatch major minor <
      (r.clusters_along_major * r.cluster_major) *
      (r.clusters_along_minor * r.cluster_minor) := by
  have hS0 : 0 < r.swizzle_size := by rw [hS]; exact Nat.two_pow_pos _
  have ha : major / r.cluster_major < r.clusters_along_major :=
    (Nat.div_lt_iff_lt_mul hcM).mpr hmaj
  have hb : minor / r.cluster_minor < r.clusters_along_minor :=
    (Nat.div_lt_iff_lt_mul hcm).mpr hmin
  have hbs : minor / r.cluster_minor / r.swizzle_size < b0 := by
    rw [Nat.div_lt_iff_lt_mul hS0, ← hB]
    exact hb
  have hextra : minor / r.cluster_minor / r.swizzle_size * r.clusters_along_major +
      major / r.cluster_major < b0 * r.clusters_along_major :=
    split_lt hbs ha
  have hcid : (minor / r.cluster_minor / r.swizzle_size * r.clusters_along_major +
      major / r.cluster_major) * r.swizzle_size + minor / r.cluster_minor % r.swizzle_size <
      r.clusters_along_major * r.clusters_along_minor := by
    calc (minor / r.cluster_minor / r.swizzle_size * r.clusters_along_major +
        major / r.cluster_major) * r.swizzle_size +
        minor / r.cluster_minor % r.swizzle_size <
        (b0 * r.clusters_along_major) * r.swizzle_size :=
      split_lt hextra (Nat.mod_lt _ hS0)
    _ = r.clusters_along_major * r.clusters_along_minor := by rw [hB]; ring
  constructor
  · simp only [encodeWithinBatch, decodeWithinBatch, encodeSwizzledClusterId_eq r hS,
      decodeSwizzledClusterId_eq r hS]
    rw [split_div _ (Nat.mod_lt minor hcm), split_mod _ (Nat.mod_lt minor hcm),
      split_div _ (Nat.mod_lt major hcM), split_mod _ (Nat.mod_lt major hcM),
      split_div _ (Nat.mod_lt _ hS0), split_mod _ (Nat.mod_lt _ hS0),
      split_div _ ha, split_mod _ ha,
      div_mul_add_mod, div_mul_add_mod, div_mul_add_mod]
  · simp only [encodeWithinBatch, encodeSwizzledClusterId_eq r hS]
    have h4 : ((minor / r.cluster_minor / r.swizzle_size * r.clusters_along_major +
        major / r.cluster_major) * r.swizzle_size +
        minor / r.cluster_minor % r.swizzle_size) * r.cluster_major +
        major % r.cluster_major <
        (r.clusters_along_major * r.clusters_along_minor) * r.cluster_major :=
      split_lt hcid (Nat.mod_lt _ hcM)
    have h5 := split_lt h4 (Nat.mod_lt minor hcm)
    have heq : (r.clusters_along_major * r.cluster_major) *
        (r.clusters_along_minor * r.cluster_minor) =
        ((r.clusters_along_major * r.clusters_along_minor) * r.cluster_major) *
        r.cluster_minor := by ring
    rw [heq]
    exact h5

/-! ### `init` establishes the structural invariants -/

/-- Dividing `roundUp v (s * c)` by `c` is exact and yields a multiple of `s`. -/
theorem roundUp_mul_div {s c : Nat} (v : Nat) (hs : 0 < s) (hc : 0 < c) :
    roundUp v (s * c) / c * c = roundUp v (s * c) ∧
    ∃ q, roundUp v (s * c) / c = q * s := by
  have hk : s * c ≠ 0 := Nat.mul_ne_zero (by omega) (by omega)
  rw [roundUp_eq v hk]
  have h1 : (v + s * c - 1) / (s * c) * (s * c) / c = (v + s * c - 1) / (s * c) * s := by
    rw [← Nat.mul_assoc, Nat.mul_div_cancel _ hc]
  constructor
  · rw [h1, Nat.mul_assoc]
  · exact ⟨(v + s * c - 1) / (s * c), h1⟩

/-- `init` copies the problem shape into `logical_` unchanged (on `Nat`
inputs the clamping coercions are the identity). -/
theorem init_logical (p : ProblemShape) (c : ClusterShape) (msz : Nat)
    (o : RasterOrderOption) : (init p c msz o).logical = p := rfl

/-- The cluster stored by `init`, m component. -/
theorem init_cluster_m (p : ProblemShape) (c : ClusterShape) (msz : Nat)
    (o : RasterOrderOption) :
    (init p c msz o).cluster.m = max 1 (if c.m = 0 then 1 else c.m) := rfl

/-- The cluster stored by `init`, n component. -/
theorem init_cluster_n (p : ProblemShape) (c : ClusterShape) (msz : Nat)
    (o : RasterOrderOption) :
    (init p c msz o).cluster.n = max 1 (if c.n = 0 then 1 else c.n) := rfl

/-- The swizzle size stored by `init` is `1 << log_swizzle_size`. -/
theorem init_swizzle (p : ProblemShape) (c : ClusterShape) (msz : Nat)
    (o : RasterOrderOption) :
    (init p c msz o).swizzle_size = 1 <<< (init p c msz o).log_swizzle_size := rfl

/-- The log-swizzle size stored by `init`. -/
theorem init_log_swizzle (p : ProblemShape) (c : ClusterShape) (msz : Nat)
    (o : RasterOrderOption) :
    (init p c msz o).log_swizzle_size =
      selectLogSwizzleSize p.tiles_m p.tiles_n
        (clampMaxSwizzle (if msz = 0 then 1 else msz)) := rfl

/-- The padded m extent stored by `init`. -/
theorem init_padded_m (p : ProblemShape) (c : ClusterShape) (msz : Nat)
    (o : RasterOrderOption) :
    (init p c msz o).padded.tiles_m =
      roundUp p.tiles_m ((init p c msz o).swizzle_size * (init p c msz o).cluster.m) := rfl

/-- The padded n extent stored by `init`. -/
theorem init_padded_n (p : ProblemShape) (c : ClusterShape) (msz : Nat)
    (o : RasterOrderOption) :
    (init p c msz o).padded.tiles_n =
      roundUp p.tiles_n ((init p c msz o).swizzle_size * (init p c msz o).cluster.n) := rfl

/-- `init` keeps the batch count in the padded shape. -/
theorem init_padded_batches (p : ProblemShape) (c : ClusterShape) (msz : Nat)
    (o : RasterOrderOption) : (init p c msz o).padded.batches = p.batches := rfl

/-- The raster order stored by `init`. -/
theorem init_raster (p : ProblemShape) (c : ClusterShape) (msz : Nat)
    (o : RasterOrderOption) :
    (init p c msz o).raster_order =
      selectRasterOrder (init p c msz o).padded.tiles_m (init p c msz o).padded.tiles_n o := rfl

/-- The major-axis cluster extent stored by `init`. -/
theorem init_cluster_major (p : ProblemShape) (c : ClusterShape) (msz : Nat)
    (o : RasterOrderOption) :
    (init p c msz o).cluster_major =
      if (init p c msz o).raster_order = RasterOrder.AlongN
      then (init p c msz o).cluster.n else (init p c msz o).cluster.m := rfl

/-- The minor-axis cluster extent stored by `init`. -/
theorem init_cluster_minor (p : ProblemShape) (c : ClusterShape) (msz : Nat)
    (o : RasterOrderOption) :
    (init p c msz o).cluster_minor =
      if (init p c msz o).raster_order = RasterOrder.AlongN
      then (init p c msz o).cluster.m else (init p c msz o).cluster.n := rfl

/-- The major-axis cluster count stored by `init`. -/
theorem init_clusters_along_major (p : ProblemShape) (c : ClusterShape) (msz : Nat)
    (o : RasterOrderOption) :
    (init p c msz o).clusters_along_major =
      if (init p c msz o).raster_order = RasterOrder.AlongN
      then (init p c msz o).padded.tiles_n / (init p c msz o).cluster.n
      else (init p c msz o).padded.tiles_m / (init p c msz o).cluster.m := rfl

/-- The minor-axis cluster count stored by `init`. -/
theorem init_clusters_along_minor (p : ProblemShape) (c : ClusterShape) (msz : Nat)
    (o : RasterOrderOption) :
    (init p c msz o).clusters_along_minor =
      if (init p c msz o).raster_order = RasterOrder.AlongN
      then (init p c msz o).padded.tiles_m / (init p c msz o).cluster.m
      else (init p c msz o).padded.tiles_n / (init p c msz o).cluster.n := rfl

/-- The tile counts stored by `init`. -/
theorem init_tiles (p : ProblemShape) (c : ClusterShape) (msz : Nat)
    (o : RasterOrderOption) :
    (init p c msz o).tiles_per_batch =
      (init p c msz o).padded.tiles_m * (init p c msz o).padded.tiles_n ∧
    (init p c msz o).total_tiles =
      (init p c msz o).tiles_per_batch * (init p c msz o).padded.batches := ⟨rfl, rfl⟩

/-- Every configuration produced by `init` satisfies the structural
invariants. -/
theorem wellFormed_init (p : ProblemShape) (c : ClusterShape) (msz : Nat)
    (o : RasterOrderOption) : WellFormed (init p c msz o) := by
  have hmax : ∀ x : Nat, 0 < max 1 x :=
    fun x => Nat.lt_of_lt_of_le Nat.zero_lt_one (Nat.le_max_left _ _)
  have hclm : 0 < (init p c msz o).cluster.m := by rw [init_cluster_m]; exact hmax _
  have hcln : 0 < (init p c msz o).cluster.n := by rw [init_cluster_n]; exact hmax _
  have hsm : 0 < (init p c msz o).swizzle_size := by
    rw [init_swizzle, Nat.one_shiftLeft]; exact Nat.two_pow_pos _
  refine ⟨?_, ?_, ?_, ?_, ?_, ?_, (init_tiles p c msz o).1, (init_tiles p c msz o).2,
    init_padded_batches p c msz o, ?_, ?_⟩
  · rw [init_swizzle, Nat.one_shiftLeft]
  · rw [init_cluster_major]
    by_cases h : (init p c msz o).raster_order = RasterOrder.AlongN <;> simp [h, hclm, hcln]
  · rw [init_cluster_minor]
    by_cases h : (init p c msz o).raster_order = RasterOrder.AlongN <;> simp [h, hclm, hcln]
  · rw [init_cluster_major, init_clusters_along_major]
    by_cases h : (init p c msz o).raster_order = RasterOrder.AlongN
    · simp only [h, if_pos]
      rw [init_padded_n]
      exact ((roundUp_mul_div p.tiles_n hsm hcln).1).symm
    · simp only [h, if_neg, if_false]
      rw [init_padded_m]
      exact ((roundUp_mul_div p.tiles_m hsm hclm).1).symm
  · rw [init_cluster_minor, init_clusters_along_minor]
    by_cases h : (init p c msz o).raster_order = RasterOrder.AlongN
    · simp only [h, if_pos]
      rw [init_padded_m]
      exact ((roundUp_mul_div p.tiles_m hsm hclm).1).symm
    · simp only [h, if_neg, if_false]
      rw [init_padded_n]
      exact ((roundUp_mul_div p.tiles_n hsm hcln).1).symm
  · rw [init_clusters_along_minor]
    by_cases h : (init p c msz o).raster_order = RasterOrder.AlongN
    · simp only [h, if_pos]
      rw [init_padded_m]
      exact (roundUp_mul_div p.tiles_m hsm hclm).2
    · simp only [h, if_neg, if_false]
      rw [init_padded_n]
      exact (roundUp_mul_div p.tiles_n hsm hcln).2
  · rw [init_padded_m, init_logical]
    exact le_roundUp _ (Nat.mul_pos hsm hclm)
  · rw [init_padded_n, init_logical]
    exact le_roundUp _ (Nat.mul_pos hsm hcln)

/-! ### Engine-level lemmas -/

/-- `tiles_per_batch` factors as (major clusters × major extent) × (minor
clusters × minor extent). -/
theorem WellFormed.tpb_prod {r : Rasterizer} (hw : WellFormed r) :
    r.tiles_per_batch =
      (r.clusters_along_major * r.cluster_major) *
      (r.clusters_along_minor * r.cluster_minor) := by
  have h1 := hw.major_ext
  have h2 := hw.minor_ext
  rw [hw.tpb_eq]
  by_cases h : r.raster_order = RasterOrder.AlongN
  · rw [if_pos h] at h1 h2
    rw [h1, h2, Nat.mul_comm]
  · rw [if_neg h] at h1 h2
    rw [h1, h2]

/-- For a well-formed configuration, `hasValidExtent` holds exactly when the
padded space is nonempty. -/
theorem hasValidExtent_iff {r : Rasterizer} (hw : WellFormed r) :
    r.hasValidExtent = true ↔ 0 < r.total_tiles := by
  unfold hasValidExtent
  simp only [Bool.and_eq_true, decide_eq_true_eq]
  constructor
  · rintro ⟨⟨⟨⟨_, _⟩, _⟩, h4⟩, h5⟩
    rw [hw.total_eq]
    exact Nat.mul_pos h5 h4
  · intro ht
    have h4 : 0 < r.padded.batches := by
      rcases Nat.eq_zero_or_pos r.padded.batches with h0 | h
      · rw [hw.total_eq, h0] at ht; simp at ht
      · exact h
    have h5 : 0 < r.tiles_per_batch := by
      rcases Nat.eq_zero_or_pos r.tiles_per_batch with h0 | h
      · rw [hw.total_eq, h0] at ht; simp at ht
      · exact h
    have h3 : 0 < r.clusters_along_major := by
      have hp : 0 < (r.clusters_along_major * r.cluster_major) *
          (r.clusters_along_minor * r.cluster_minor) := hw.tpb_prod ▸ h5
      rcases Nat.eq_zero_or_pos r.clusters_along_major with h0 | h
      · rw [h0] at hp; simp at hp
      · exact h
    exact ⟨⟨⟨⟨hw.cmaj_pos, hw.cmin_pos⟩, h3⟩, h4⟩, h5⟩

/-- Equations for the fields of a successful decode. -/
theorem decode_eq {r : Rasterizer} (hw : WellFormed r) {i : Nat}
    (hi : i < r.total_tiles) :
    (r.decode i).valid = true ∧
    (r.decode i).l = i / r.tiles_per_batch ∧
    (r.decode i).m = (if r.raster_order = RasterOrder.AlongN
        then (r.decodeWithinBatch (i % r.tiles_per_batch)).2
        else (r.decodeWithinBatch (i % r.tiles_per_batch)).1) ∧
    (r.decode i).n = (if r.raster_order = RasterOrder.AlongN
        then (r.decodeWithinBatch (i % r.tiles_per_batch)).1
        else (r.decodeWithinBatch (i % r.tiles_per_batch)).2) ∧
    (r.decode i).in_bounds =
      (decide ((r.decode i).m < r.logical.tiles_m) &&
       decide ((r.decode i).n < r.logical.tiles_n) &&
       decide ((r.decode i).l < r.logical.batches)) := by
  have hv : r.hasValidExtent = true :=
    (hasValidExtent_iff hw).mpr (Nat.lt_of_le_of_lt (Nat.zero_le _) hi)
  have h2 : ¬ i ≥ r.total_tiles := by omega
  simp only [decode, decodeWithinBatch, hv, h2, not_true, if_false, ite_false,
    Bool.not_true, if_neg, Bool.false_eq_true, not_false_iff, if_true]
  exact ⟨trivial, trivial, trivial, trivial, trivial⟩

/-- A successful encode is the within-batch encoding offset into the batch. -/
theorem encode_eq_of_ok {r : Rasterizer} (hv : r.hasValidExtent = true)
    {tileM tileN tileL : Nat} {ap : Bool}
    (hl : tileL < r.logical.batches)
    (hm : tileM < (if ap then r.padded.tiles_m else r.logical.tiles_m))
    (hn : tileN < (if ap then r.padded.tiles_n else r.logical.tiles_n)) :
    r.encode tileM tileN tileL ap =
      ((tileL * r.tiles_per_batch +
        r.encodeWithinBatch
          (if r.raster_order = RasterOrder.AlongN then tileN else tileM)
          (if r.raster_order = RasterOrder.AlongN then tileM else tileN) : Nat) : Int) := by
  have h1 : ¬ tileL ≥ r.logical.batches := by omega
  have h2 : ¬ (tileM ≥ (if ap then r.padded.tiles_m else r.logical.tiles_m) ∨
      tileN ≥ (if ap then r.padded.tiles_n else r.logical.tiles_n)) := by
    push_neg
    exact ⟨hm, hn⟩
  simp only [encode, encodeWithinBatch, hv, h1, h2, not_true, if_false, ite_false,
    Bool.not_true, Bool.false_eq_true, not_false_iff, if_true, if_neg]

/-- A positive `tiles_per_batch` given a total-tiles bound. -/
theorem tpb_pos {r : Rasterizer} (hw : WellFormed r) {i : Nat}
    (hi : i < r.total_tiles) : 0 < r.tiles_per_batch := by
  have ht : 0 < r.total_tiles := Nat.lt_of_le_of_lt (Nat.zero_le _) hi
  rcases Nat.eq_zero_or_pos r.tiles_per_batch with h0 | h
  · rw [hw.total_eq, h0] at ht; simp at ht
  · exact h

/-- The coordinate decoded from an in-range linear index stays inside the
padded extents (and its batch inside the batch count). -/
theorem decode_coord_lt {r : Rasterizer} (hw : WellFormed r) {i : Nat}
    (hi : i < r.total_tiles) :
    (r.decode i).m < r.padded.tiles_m ∧ (r.decode i).n < r.padded.tiles_n ∧
    (r.decode i).l < r.logical.batches := by
  obtain ⟨_, hl, hm, hn, _⟩ := decode_eq hw hi
  have hP : 0 < r.tiles_per_batch := tpb_pos hw hi
  have hidx : i % r.tiles_per_batch <
      (r.clusters_along_major * r.cluster_major) *
      (r.clusters_along_minor * r.cluster_minor) :=
    hw.tpb_prod ▸ Nat.mod_lt _ hP
  obtain ⟨b0, hB⟩ := hw.minor_mul
  have hbounds := decodeWithinBatch_lt r hw.swz hw.cmaj_pos hw.cmin_pos hB hidx
  have hmaj := hw.major_ext
  have hmin := hw.minor_ext
  have hlb : (r.decode i).l < r.logical.batches := by
    rw [hl, ← hw.batches_eq, Nat.div_lt_iff_lt_mul hP]
    rw [hw.total_eq] at hi
    rw [Nat.mul_comm]
    exact hi
  by_cases h : r.raster_order = RasterOrder.AlongN
  · rw [if_pos h] at hmaj hmin
    rw [if_pos h] at hm hn
    exact ⟨by rw [hm, hmin]; exact hbounds.2, by rw [hn, hmaj]; exact hbounds.1, hlb⟩
  · rw [if_neg h] at hmaj hmin
    rw [if_neg h] at hm hn
    exact ⟨by rw [hm, hmaj]; exact hbounds.1, by rw [hn, hmin]; exact hbounds.2, hlb⟩

/-- Re-encoding a decoded coordinate with `allow_padded` recovers the linear
index: `encode` is a left inverse of `decode` over the physical space. -/
theorem encode_decode {r : Rasterizer} (hw : WellFormed r) {i : Nat}
    (hi : i < r.total_tiles) :
    r.encode (r.decode i).m (r.decode i).n (r.decode i).l true = (i : Int) := by
  obtain ⟨hmp, hnp, hlb⟩ := decode_coord_lt hw hi
  obtain ⟨_, hl, hm, hn, _⟩ := decode_eq hw hi
  have hv : r.hasValidExtent = true :=
    (hasValidExtent_iff hw).mpr (Nat.lt_of_le_of_lt (Nat.zero_le _) hi)
  have hP : 0 < r.tiles_per_batch := tpb_pos hw hi
  rw [encode_eq_of_ok hv hlb (by simpa using hmp) (by simpa using hnp)]
  have hmm : (if r.raster_order = RasterOrder.AlongN then (r.decode i).n else (r.decode i).m)
      = (r.decodeWithinBatch (i % r.tiles_per_batch)).1 := by
    by_cases h : r.raster_order = RasterOrder.AlongN
    · rw [if_pos h, hn, if_pos h]
    · rw [if_neg h, hm, if_neg h]
  have hnn : (if r.raster_order = RasterOrder.AlongN then (r.decode i).m else (r.decode i).n)
      = (r.decodeWithinBatch (i % r.tiles_per_batch)).2 := by
    by_cases h : r.raster_order = RasterOrder.AlongN
    · rw [if_pos h, hm, if_pos h]
    · rw [if_neg h, hn, if_neg h]
  rw [hmm, hnn, hl,
    encodeWithinBatch_decodeWithinBatch r hw.swz hw.cmaj_pos hw.cmin_pos,
    div_mul_add_mod]

/-- A coordinate inside the guard bounds encodes successfully to an in-range
linear index, and decoding that index recovers the coordinate. -/
theorem encode_ok {r : Rasterizer} (hw : WellFormed r) (hv : r.hasValidExtent = true)
    {m n l : Nat} (ap : Bool)
    (hl : l < r.logical.batches)
    (hm : m < (if ap then r.padded.tiles_m else r.logical.tiles_m))
    (hn : n < (if ap then r.padded.tiles_n else r.logical.tiles_n)) :
    ∃ e : Nat, r.encode m n l ap = (e : Int) ∧ e < r.total_tiles ∧
      r.decode e = { m := m, n := n, l := l, valid := true,
                     in_bounds := decide (m < r.logical.tiles_m) &&
                       decide (n < r.logical.tiles_n) &&
                       decide (l < r.logical.batches) } := by
  have hmp : m < r.padded.tiles_m := by
    cases ap
    · exact Nat.lt_of_lt_of_le (by simpa using hm) hw.m_le
    · simpa using hm
  have hnp : n < r.padded.tiles_n := by
    cases ap
    · exact Nat.lt_of_lt_of_le (by simpa using hn) hw.n_le
    · simpa using hn
  have hmaj : (if r.raster_order = RasterOrder.AlongN then n else m) <
      r.clusters_along_major * r.cluster_major := by
    have h1 := hw.major_ext
    by_cases h : r.raster_order = RasterOrder.AlongN
    · rw [if_pos h] at h1 ⊢; rw [← h1]; exact hnp
    · rw [if_neg h] at h1 ⊢; rw [← h1]; exact hmp
  have hmin : (if r.raster_order = RasterOrder.AlongN then m else n) <
      r.clusters_along_minor * r.cluster_minor := by
    have h1 := hw.minor_ext
    by_cases h : r.raster_order = RasterOrder.AlongN
    · rw [if_pos h] at h1 ⊢; rw [← h1]; exact hmp
    · rw [if_neg h] at h1 ⊢; rw [← h1]; exact hnp
  obtain ⟨b0, hB⟩ := hw.minor_mul
  obtain ⟨hdec, hlt⟩ :=
    decodeWithinBatch_encodeWithinBatch r hw.swz hw.cmaj_pos hw.cmin_pos hB hmaj hmin
  have hltP : r.encodeWithinBatch
      (if r.raster_order = RasterOrder.AlongN then n else m)
      (if r.raster_order = RasterOrder.AlongN then m else n) < r.tiles_per_batch := by
    rw [hw.tpb_prod]; exact hlt
  have hl2 : l < r.padded.batches := by rw [hw.batches_eq]; exact hl
  have he : l * r.tiles_per_batch + r.encodeWithinBatch
      (if r.raster_order = RasterOrder.AlongN then n else m)
      (if r.raster_order = RasterOrder.AlongN then m else n) < r.total_tiles := by
    rw [hw.total_eq, Nat.mul_comm r.tiles_per_batch r.padded.batches]
    exact split_lt hl2 hltP
  refine ⟨_, encode_eq_of_ok hv hl hm hn, he, ?_⟩
  obtain ⟨hval, hlq, hmq, hnq, hbq⟩ := decode_eq hw he
  have hediv : (l * r.tiles_per_batch + r.encodeWithinBatch
      (if r.raster_order = RasterOrder.AlongN then n else m)
      (if r.raster_order = RasterOrder.AlongN then m else n)) / r.tiles_per_batch = l :=
    split_div l hltP
  have hemod : (l * r.tiles_per_batch + r.encodeWithinBatch
      (if r.raster_order = RasterOrder.AlongN then n else m)
      (if r.raster_order = RasterOrder.AlongN then m else n)) % r.tiles_per_batch =
      r.encodeWithinBatch
      (if r.raster_order = RasterOrder.AlongN then n else m)
      (if r.raster_order = RasterOrder.AlongN then m else n) :=
    split_mod l hltP
  set e := l * r.tiles_per_batch + r.encodeWithinBatch
      (if r.raster_order = RasterOrder.AlongN then n else m)
      (if r.raster_order = RasterOrder.AlongN then m else n) with hedef
  have hm' : (r.decode e).m = m := by
    rw [hmq, hemod, hdec]
    by_cases h : r.raster_order = RasterOrder.AlongN <;> simp [h]
  have hn' : (r.decode e).n = n := by
    rw [hnq, hemod, hdec]
    by_cases h : r.raster_order = RasterOrder.AlongN <;> simp [h]
  have hl' : (r.decode e).l = l := by rw [hlq, hediv]
  have hb' : (r.decode e).in_bounds =
      (decide (m < r.logical.tiles_m) && decide (n < r.logical.tiles_n) &&
       decide (l < r.logical.batches)) := by
    rw [hbq, hm', hn', hl']
  have heta : r.decode e = ⟨(r.decode e).m, (r.decode e).n, (r.decode e).l,
      (r.decode e).valid, (r.decode e).in_bounds⟩ := rfl
  rw [heta, hm', hn', hl', hval, hb']

/-- On logically in-bounds coordinates, `allow_padded` does not change the
encoding. -/
theorem encode_false_eq_encode_true {r : Rasterizer} (hw : WellFormed r) {m n l : Nat}
    (hm : m < r.logical.tiles_m) (hn : n < r.logical.tiles_n) :
    r.encode m n l false = r.encode m n l true := by
  have hmp : m < r.padded.tiles_m := Nat.lt_of_lt_of_le hm hw.m_le
  have hnp : n < r.padded.tiles_n := Nat.lt_of_lt_of_le hn hw.n_le
  have e1 : ¬ m ≥ r.logical.tiles_m := by omega
  have e2 : ¬ n ≥ r.logical.tiles_n := by omega
  have e3 : ¬ m ≥ r.padded.tiles_m := by omega
  have e4 : ¬ n ≥ r.padded.tiles_n := by omega
  simp [encode, e1, e2, e3, e4]

/-- `encode` returns the sentinel exactly under its guard conditions. -/
theorem encode_invalid_iff (r : Rasterizer) (m n l : Nat) (ap : Bool) :
    r.encode m n l ap = kInvalidLinearIndex ↔
      (r.hasValidExtent = false ∨ r.logical.batches ≤ l ∨
       (if ap then r.padded.tiles_m else r.logical.tiles_m) ≤ m ∨
       (if ap then r.padded.tiles_n else r.logical.tiles_n) ≤ n) := by
  by_cases h1 : r.hasValidExtent = true
  · by_cases h2 : l ≥ r.logical.batches
    · simp [encode, h1, h2]
    · by_cases h3 : m ≥ (if ap then r.padded.tiles_m else r.logical.tiles_m) ∨
          n ≥ (if ap then r.padded.tiles_n else r.logical.tiles_n)
      · rcases h3 with h3 | h3 <;> simp [encode, h1, h2, h3]
      · push_neg at h3
        have hRHS : ¬ (r.hasValidExtent = false ∨ r.logical.batches ≤ l ∨
            (if ap then r.padded.tiles_m else r.logical.tiles_m) ≤ m ∨
            (if ap then r.padded.tiles_n else r.logical.tiles_n) ≤ n) := by
          push_neg
          have hm := h3.1
          have hn := h3.2
          refine ⟨by simp [h1], by omega, by omega, by omega⟩
        have hLHS : r.encode m n l ap ≠ kInvalidLinearIndex := by
          rw [encode_eq_of_ok h1 (by omega) h3.1 h3.2, kInvalidLinearIndex]
          omega
        exact iff_of_false hLHS hRHS
  · have h1' : r.hasValidExtent = false := Bool.eq_false_iff.mpr h1
    simp [encode, h1', kInvalidLinearIndex]

/-- The count of in-range linear indices decoding in bounds equals the
logical tile count. -/
theorem in_bounds_card {r : Rasterizer} (hw : WellFormed r) :
    ((Finset.range r.total_tiles).filter (fun i => (r.decode i).in_bounds = true)).card =
      r.logical.tiles_m * r.logical.tiles_n * r.logical.batches := by
  rcases Nat.eq_zero_or_pos r.total_tiles with h0 | hT
  · have hz := h0
    rw [hw.total_eq, hw.tpb_eq] at hz
    rw [h0]
    simp only [Finset.range_zero, Finset.filter_empty, Finset.card_empty]
    rcases Nat.mul_eq_zero.mp hz with h | h
    · rcases Nat.mul_eq_zero.mp h with h' | h'
      · have : r.logical.tiles_m = 0 := by have := hw.m_le; omega
        rw [this]; ring
      · have : r.logical.tiles_n = 0 := by have := hw.n_le; omega
        rw [this]; ring
    · have : r.logical.batches = 0 := by rw [← hw.batches_eq]; exact h
      rw [this]
      ring
  · have hv : r.hasValidExtent = true := (hasValidExtent_iff hw).mpr hT
    have hcardt : ((Finset.range r.logical.tiles_m ×ˢ Finset.range r.logical.tiles_n) ×ˢ
        Finset.range r.logical.batches).card =
        r.logical.tiles_m * r.logical.tiles_n * r.logical.batches := by
      simp [Finset.card_product]
    rw [← hcardt]
    have hin : ∀ a, a < r.total_tiles →
        ((r.decode a).in_bounds = true ↔
          ((r.decode a).m < r.logical.tiles_m ∧ (r.decode a).n < r.logical.tiles_n ∧
           (r.decode a).l < r.logical.batches)) := by
      intro a ha
      rw [(decode_eq hw ha).2.2.2.2]
      simp [Bool.and_eq_true, decide_eq_true_eq, and_assoc]
    apply Finset.card_nbij'
      (fun a => (((r.decode a).m, (r.decode a).n), (r.decode a).l))
      (fun b => (r.encode b.1.1 b.1.2 b.2 false).toNat)
    · intro a ha
      rw [Finset.mem_filter, Finset.mem_range] at ha
      obtain ⟨h1, h2⟩ := ha
      obtain ⟨hm, hn, hl⟩ := (hin a h1).mp h2
      simp only [Finset.mem_product, Finset.mem_range]
      exact ⟨⟨hm, hn⟩, hl⟩
    · rintro ⟨⟨bm, bn⟩, bl⟩ hb
      simp only [Finset.mem_product, Finset.mem_range] at hb
      obtain ⟨⟨hbm, hbn⟩, hbl⟩ := hb
      obtain ⟨e, he1, he2, he3⟩ := encode_ok hw hv false hbl (by simpa using hbm) (by simpa using hbn)
      rw [Finset.mem_filter, Finset.mem_range]
      have hj : (r.encode bm bn bl false).toNat = e := by
        rw [he1]; exact Int.toNat_natCast e
      rw [hj]
      refine ⟨he2, ?_⟩
      rw [he3]
      simp [hbm, hbn, hbl]
    · intro a ha
      rw [Finset.mem_filter, Finset.mem_range] at ha
      obtain ⟨h1, h2⟩ := ha
      obtain ⟨hm, hn, hl⟩ := (hin a h1).mp h2
      rw [encode_false_eq_encode_true hw hm hn, encode_decode hw h1]
      exact Int.toNat_natCast a
    · rintro ⟨⟨bm, bn⟩, bl⟩ hb
      simp only [Finset.mem_product, Finset.mem_range] at hb
      obtain ⟨⟨hbm, hbn⟩, hbl⟩ := hb
      obtain ⟨e, he1, he2, he3⟩ := encode_ok hw hv false hbl (by simpa using hbm) (by simpa using hbn)
      have hj : (r.encode bm bn bl false).toNat = e := by
        rw [he1]; exact Int.toNat_natCast e
      rw [hj, he3]

/-! ### Claim theorems -/

/-- C1 (code bug, failing input): the claim's physical round-trip fails in
`app.js`.  At `wrapRasterizer` the linear index `2^31` is in
`[0, totalTiles())` and, under the JS 32-bit bitwise semantics, decodes
valid with the wrapped coordinate `m = -8`; re-encoding that coordinate
with `allow_padded = true` then trips the negativity guard and returns the
sentinel instead of `2^31`.  (The wrap-free reference semantics satisfies
the claim: see `encode_decode`.) -/
theorem claim_C1 :
    2 ^ 31 < wrapRasterizer.total_tiles ∧
    (wrapRasterizer.decode32 (2 ^ 31)).valid = true ∧
    (wrapRasterizer.decode32 (2 ^ 31)).m = -8 ∧
    wrapRasterizer.encode32 (wrapRasterizer.decode32 (2 ^ 31)).m
      (wrapRasterizer.decode32 (2 ^ 31)).n ((wrapRasterizer.decode32 (2 ^ 31)).l : Int)
      true ≠ ((2 ^ 31 : Nat) : Int) := by decide

/-- C2 (code bug, failing input): at `wrapRasterizer` the logical
coordinate `(15, 2^28 - 1, 0)` is strictly inside the logical extent, yet
`app.js` `encode(…, allow_padded = false)` computes
`(1073741823 << 2) | 3 = -1` through `ToInt32` and returns the invalid
sentinel, falsifying the claim's logical round-trip in the program. -/
theorem claim_C2 :
    (15 : Int) < (wrapRasterizer.logical.tiles_m : Int) ∧
    ((2 : Int) ^ 28 - 1) < (wrapRasterizer.logical.tiles_n : Int) ∧
    (0 : Int) < (wrapRasterizer.logical.batches : Int) ∧
    wrapRasterizer.encode32 15 (2 ^ 28 - 1) 0 false = kInvalidLinearIndex := by decide

/-- C3 (code bug, failing input): at `wrapPaddingRasterizer` the linear
index 3221225420 is the (reference) encoding of the padding tile
`(8, 2^28 - 5)` and decodes out of bounds under the wrap-free semantics,
but `app.js` decodes it through the `ToInt32` wrap to a garbage coordinate
with negative `m` flagged `in_bounds = true` — so the program's in-bounds
count over `[0, totalTiles())` differs from the logical tile count the
claim requires.  (The wrap-free count does match: see `in_bounds_card`.) -/
theorem claim_C3 :
    wrapPaddingRasterizer.encode 8 (2 ^ 28 - 5) 0 true = ((3221225420 : Nat) : Int) ∧
    3221225420 < wrapPaddingRasterizer.total_tiles ∧
    (wrapPaddingRasterizer.decode 3221225420).in_bounds = false ∧
    (wrapPaddingRasterizer.decode32 3221225420).valid = true ∧
    (wrapPaddingRasterizer.decode32 3221225420).in_bounds = true ∧
    (wrapPaddingRasterizer.decode32 3221225420).m < 0 := by decide

/-- C4: after every `init`, the padded shape dominates the logical shape, is
aligned to `swizzle_size * cluster` on each axis, keeps the batch count, and
`roundUp` with multiple 0 is the identity. -/
theorem claim_C4 (p : ProblemShape) (c : ClusterShape) (msz : Nat)
    (o : RasterOrderOption) :
    (init p c msz o).logical.tiles_m ≤ (init p c msz o).padded.tiles_m ∧
    (init p c msz o).logical.tiles_n ≤ (init p c msz o).padded.tiles_n ∧
    ((init p c msz o).swizzle_size * (init p c msz o).cluster.m ∣
      (init p c msz o).padded.tiles_m) ∧
    ((init p c msz o).swizzle_size * (init p c msz o).cluster.n ∣
      (init p c msz o).padded.tiles_n) ∧
    (init p c msz o).padded.batches = (init p c msz o).logical.batches ∧
    ∀ v : Nat, roundUp v 0 = v := by
  have hw := wellFormed_init p c msz o
  have hs : 0 < (init p c msz o).swizzle_size := by
    rw [init_swizzle, Nat.one_shiftLeft]; exact Nat.two_pow_pos _
  have hcm : 0 < (init p c msz o).cluster.m := by
    rw [init_cluster_m]; exact Nat.lt_of_lt_of_le Nat.zero_lt_one (Nat.le_max_left _ _)
  have hcn : 0 < (init p c msz o).cluster.n := by
    rw [init_cluster_n]; exact Nat.lt_of_lt_of_le Nat.zero_lt_one (Nat.le_max_left _ _)
  refine ⟨hw.m_le, hw.n_le, ?_, ?_, hw.batches_eq, roundUp_zero⟩
  · rw [init_padded_m, roundUp_eq _ (Nat.mul_ne_zero (by omega) (by omega))]
    exact dvd_mul_left _ _
  · rw [init_padded_n, roundUp_eq _ (Nat.mul_ne_zero (by omega) (by omega))]
    exact dvd_mul_left _ _

/-- C5: under the `Heuristic` option the resolved raster order is `AlongM`
exactly when `padded.tiles_n > padded.tiles_m` (ties giving `AlongN`), and
explicit options pass through unchanged. -/
theorem claim_C5 (p : ProblemShape) (c : ClusterShape) (msz : Nat) :
    ((init p c msz RasterOrderOption.Heuristic).raster_order =
      if (init p c msz RasterOrderOption.Heuristic).padded.tiles_m <
         (init p c msz RasterOrderOption.Heuristic).padded.tiles_n
      then RasterOrder.AlongM else RasterOrder.AlongN) ∧
    ((init p c msz RasterOrderOption.Heuristic).padded.tiles_m =
     (init p c msz RasterOrderOption.Heuristic).padded.tiles_n →
      (init p c msz RasterOrderOption.Heuristic).raster_order = RasterOrder.AlongN) ∧
    (init p c msz RasterOrderOption.AlongM).raster_order = RasterOrder.AlongM ∧
    (init p c msz RasterOrderOption.AlongN).raster_order = RasterOrder.AlongN := by
  refine ⟨?_, ?_, ?_, ?_⟩
  · rw [init_raster]
    simp [selectRasterOrder]
  · intro h
    rw [init_raster]
    simp [selectRasterOrder, h]
  · rw [init_raster]
    simp [selectRasterOrder]
  · rw [init_raster]
    simp [selectRasterOrder]

/-- Witness for C5: a square padded shape (configuration `{4,4,1}`, cluster
`{1,1}`, cap 1) resolves to `AlongN` under `Heuristic`. -/
theorem claim_C5_witness :
    (init { tiles_m := 4, tiles_n := 4, batches := 1 } { m := 1, n := 1 } 1
        RasterOrderOption.Heuristic).padded.tiles_m =
      (init { tiles_m := 4, tiles_n := 4, batches := 1 } { m := 1, n := 1 } 1
        RasterOrderOption.Heuristic).padded.tiles_n ∧
    (init { tiles_m := 4, tiles_n := 4, batches := 1 } { m := 1, n := 1 } 1
        RasterOrderOption.Heuristic).raster_order = RasterOrder.AlongN :=
  ⟨by decide, (claim_C5 { tiles_m := 4, tiles_n := 4, batches := 1 } { m := 1, n := 1 } 1).2.1
    (by decide)⟩

/-- C6 (code bug, failing input): `app.js` returns the invalid sentinel
with no guard fired.  At `wrapRasterizer`, `encode(15, 2^28 - 1, 0, false)`
has a valid extent and every argument non-negative and strictly inside its
bound, yet the `ToInt32` wrap makes the swizzled cluster id `-1` and the
function returns the sentinel — falsifying the claim's "sentinel iff
guard" equivalence. -/
theorem claim_C6 :
    wrapRasterizer.encode32 15 (2 ^ 28 - 1) 0 false = kInvalidLinearIndex ∧
    wrapRasterizer.hasValidExtent = true ∧
    (0 : Int) ≤ 0 ∧ (0 : Int) < (wrapRasterizer.logical.batches : Int) ∧
    (0 : Int) ≤ 15 ∧ (15 : Int) < (wrapRasterizer.logical.tiles_m : Int) ∧
    (0 : Int) ≤ (2 : Int) ^ 28 - 1 ∧
    ((2 : Int) ^ 28 - 1) < (wrapRasterizer.logical.tiles_n : Int) := by decide

/-- C7: `decode` returns `valid = false` exactly when the extent is invalid
or the index is at least `totalTiles()`, and an invalid decode also has
`in_bounds = false`. -/
theorem claim_C7 (p : ProblemShape) (c : ClusterShape) (msz : Nat)
    (o : RasterOrderOption) (i : Nat) :
    (((init p c msz o).decode i).valid = false ↔
      ((init p c msz o).hasValidExtent = false ∨ (init p c msz o).total_tiles ≤ i)) ∧
    (((init p c msz o).decode i).valid = false →
      ((init p c msz o).decode i).in_bounds = false) := by
  by_cases h1 : (init p c msz o).hasValidExtent = true
  · by_cases h2 : i ≥ (init p c msz o).total_tiles
    · constructor
      · simp [decode, h1, h2]
      · intro _
        simp [decode, h1, h2]
    · have hval : ((init p c msz o).decode i).valid = true :=
        (decode_eq (wellFormed_init p c msz o) (by omega)).1
      constructor
      · rw [hval]
        simp [h1, h2]
      · rw [hval]
        intro hcon
        exact absurd hcon (by simp)
  · have h1' : (init p c msz o).hasValidExtent = false := Bool.eq_false_iff.mpr h1
    constructor
    · simp [decode, h1']
    · intro _
      simp [decode, h1']

/-- Witness for C7: at configuration `{4,4,1}`, cluster `{1,1}`, cap 1, the
out-of-range index 99 decodes with `valid = false` and `in_bounds = false`. -/
theorem claim_C7_witness :
    ((init { tiles_m := 4, tiles_n := 4, batches := 1 } { m := 1, n := 1 } 1
        RasterOrderOption.Heuristic).decode 99).valid = false ∧
    ((init { tiles_m := 4, tiles_n := 4, batches := 1 } { m := 1, n := 1 } 1
        RasterOrderOption.Heuristic).decode 99).in_bounds = false :=
  ⟨(claim_C7 { tiles_m := 4, tiles_n := 4, batches := 1 } { m := 1, n := 1 } 1
      RasterOrderOption.Heuristic 99).1.mpr (Or.inr (by decide)),
   (claim_C7 { tiles_m := 4, tiles_n := 4, batches := 1 } { m := 1, n := 1 } 1
      RasterOrderOption.Heuristic 99).2
     ((claim_C7 { tiles_m := 4, tiles_n := 4, batches := 1 } { m := 1, n := 1 } 1
      RasterOrderOption.Heuristic 99).1.mpr (Or.inr (by decide)))⟩

/-- C8: the concrete scenario `{127,93,2}`, cluster `{2,2}`, cap 8,
`Heuristic` derives `log_swizzle_size = 3` (swizzle 8), padded `{128,96,2}`,
raster order `AlongN`; the logical round-trip holds for every logical tile
with no mismatches, and 23622 linear indices decode in bounds. -/
theorem claim_C8 :
    scenarioRasterizer.log_swizzle_size = 3 ∧
    scenarioRasterizer.swizzle_size = 8 ∧
    scenarioRasterizer.padded = { tiles_m := 128, tiles_n := 96, batches := 2 } ∧
    scenarioRasterizer.raster_order = RasterOrder.AlongN ∧
    (∀ m < 127, ∀ n < 93, ∀ l < 2,
      scenarioRasterizer.encode m n l false ≠ kInvalidLinearIndex ∧
      scenarioRasterizer.decode (scenarioRasterizer.encode m n l false).toNat =
        { m := m, n := n, l := l, valid := true, in_bounds := true }) ∧
    ((Finset.range scenarioRasterizer.total_tiles).filter
        (fun i => (scenarioRasterizer.decode i).in_bounds = true)).card = 23622 := by
  have hw : WellFormed scenarioRasterizer := wellFormed_init _ _ _ _
  have hv : scenarioRasterizer.hasValidExtent = true := by decide
  refine ⟨rfl, rfl, rfl, rfl, ?_, ?_⟩
  · intro m hm n hn l hl
    have hm2 : m < scenarioRasterizer.logical.tiles_m := hm
    have hn2 : n < scenarioRasterizer.logical.tiles_n := hn
    have hl2 : l < scenarioRasterizer.logical.batches := hl
    obtain ⟨e, he1, he2, he3⟩ :=
      encode_ok hw hv false hl2 (by simpa using hm2) (by simpa using hn2)
    constructor
    · rw [he1, kInvalidLinearIndex]
      omega
    · rw [he1, Int.toNat_natCast, he3]
      simp [hm2, hn2, hl2]
  · rw [in_bounds_card hw]
    decide

/-- Witness for C8: the round-trip part at the logical tile `(126, 92, 1)`. -/
theorem claim_C8_witness :
    scenarioRasterizer.encode 126 92 1 false ≠ kInvalidLinearIndex :=
  (claim_C8.2.2.2.2.1 126 (by decide) 92 (by decide) 1 (by decide)).1

/-- C9 (code bug, failing input): a successful (non-sentinel) `app.js`
encode can leave `[0, totalTiles())`.  At `wrapRasterizer`,
`encode(14, 2^28 - 1, 0, false)` returns `-2` through the `ToInt32` wrap:
not the sentinel, negative, outside every representable physical index. -/
theorem claim_C9 :
    wrapRasterizer.encode32 14 (2 ^ 28 - 1) 0 false ≠ kInvalidLinearIndex ∧
    wrapRasterizer.encode32 14 (2 ^ 28 - 1) 0 false = -2 ∧
    wrapRasterizer.encode32 14 (2 ^ 28 - 1) 0 false < 0 := by decide

/-- C10: for every configuration produced by `init`, `hasValidExtent` holds
exactly when `totalTiles() > 0`, and `decode i` is valid exactly when
`i < totalTiles()`. -/
theorem claim_C10 (p : ProblemShape) (c : ClusterShape) (msz : Nat)
    (o : RasterOrderOption) :
    ((init p c msz o).hasValidExtent = true ↔ 0 < (init p c msz o).total_tiles) ∧
    ∀ i : Nat, (((init p c msz o).decode i).valid = true ↔
      i < (init p c msz o).total_tiles) := by
  have hw := wellFormed_init p c msz o
  refine ⟨hasValidExtent_iff hw, fun i => ?_⟩
  constructor
  · intro h
    by_contra hc
    push_neg at hc
    by_cases h1 : (init p c msz o).hasValidExtent = true
    · simp [decode, h1, hc] at h
    · simp [decode, h1] at h
  · intro h
    exact (decode_eq hw h).1

end Rasterizer

end Raster
